import Mathlib

/-!
Shallow embedding of the restaurant ordering backend's order lifecycle.

Two parallel implementations are embedded:
* the document-store server (`src/unnamed/part_001`, mongoose): prefix `mongo`;
* the relational server (`src/server-postgres.js`): prefix `pg`.

JavaScript request bodies are modelled with `Option` for possibly-absent
fields; JS truthiness of a numeric field (`!x`) is `truthyInt`.  Timestamps
(`Date.now()` / `NOW()`) are `Nat` milliseconds passed explicitly.  Ids are
opaque: mongoose ObjectIds become `"oid" ++ counter` strings, the in-memory
fallback id `Date.now().toString()` becomes `toString now`; the relational
ids are `Nat` (SERIAL).  A possibly failing backend write is modelled by an
explicit `writeOk : Bool` argument; a thrown storage error surfaces as the
route's catch-all 500, `ErrKind.dependency`.
-/

/-- JS truthiness of an optional numeric field: absent (undefined) or 0 is falsy. -/
def truthyInt : Option Int → Bool
  | none => false
  | some v => v != 0

/-- `v || d` for an optional numeric field: the value when truthy, else the default. -/
def jsOrInt (v : Option Int) (d : Int) : Int :=
  if truthyInt v then v.getD 0 else d

/-- `a || b || d` for two optional numeric fields. -/
def jsOrInt2 (a b : Option Int) (d : Int) : Int :=
  if truthyInt a then a.getD 0 else jsOrInt b d

/-- JS truthiness of an optional string (query/body) field: absent or "" is falsy. -/
def truthyStr : Option String → Bool
  | none => false
  | some s => s != ""

/-- A line item of an order request body.  The relational route additionally
reads a `prep_time` key (`server-postgres.js` line 319), so both spellings are
carried. -/
structure OrderItem where
  name : String
  price : Int
  quantity : Int
  category : String
  prepTime : Option Int := none
  prep_time : Option Int := none
  deriving DecidableEq

/-- The body of `POST /api/order`: `{ tableNo, items, total }`, each possibly absent. -/
structure OrderReq where
  tableNo : Option Int := none
  items : Option (List OrderItem) := none
  total : Option Int := none
  deriving DecidableEq

/-- The shared validation check of both create-order routes:
`!tableNo || !items || !items.length || !total`
(`src/unnamed/part_001` line 174, `src/server-postgres.js` line 312). -/
def missingRequiredFields (r : OrderReq) : Bool :=
  !truthyInt r.tableNo || r.items.isNone || (r.items.getD []).isEmpty || !truthyInt r.total

/-- `Math.max(...)` over a list of numbers.  Both routes apply it only to the
mapped `items`, which validation has already checked non-empty, so the empty
case (JS `-Infinity`) is unreachable and fixed arbitrarily at 0. -/
def mathMax : List Int → Int
  | [] => 0
  | x :: xs => xs.foldl max x

/-- `Math.max(...items.map(item => item.prepTime || 15)) + 5`
(`src/unnamed/part_001` line 178). -/
def mongoEstimatedTime (items : List OrderItem) : Int :=
  mathMax (items.map fun it => jsOrInt it.prepTime 15) + 5

/-- `Math.max(...items.map(item => item.prepTime || item.prep_time || 15)) + 5`
(`src/server-postgres.js` line 319). -/
def pgEstimatedTime (items : List OrderItem) : Int :=
  mathMax (items.map fun it => jsOrInt2 it.prepTime it.prep_time 15) + 5

/-- The six recognized order statuses (`validStatuses` in both servers). -/
def validStatuses : List String :=
  ["pending", "confirmed", "preparing", "ready", "served", "cancelled"]

/-- `validStatuses.includes(status)` with `status` read from the body
(absent → `includes(undefined)` → false). -/
def isValidStatus : Option String → Bool
  | none => false
  | some st => validStatuses.contains st

/-- An order document of the document-store server.  The in-memory fallback
literal (`src/unnamed/part_001` lines 181-189) has no `updatedAt` key, while a
mongoose document defaults it, so `updatedAt` is optional. -/
structure MongoOrder where
  _id : String
  tableNo : Int
  items : List OrderItem
  total : Int
  status : String
  estimatedTime : Int
  createdAt : Nat
  updatedAt : Option Nat
  deriving DecidableEq

/-- An order row of the relational server (`orders` table, snake_case columns). -/
structure PgOrder where
  id : Nat
  table_no : Int
  items : List OrderItem
  total : Int
  status : String
  estimated_time : Int
  created_at : Nat
  updated_at : Nat
  deriving DecidableEq

/-- The payload of a socket.io event, one constructor per emitted object shape. -/
inductive Payload
  /-- the whole order document (`emit('newOrder', order)` in `part_001`) -/
  | mongoOrder (o : MongoOrder)
  /-- `\x7b orderId, status \x7d` (`part_001` lines 261-269) -/
  | mongoStatus (orderId : String) (status : String)
  /-- `\x7b orderId, tableNo, items, total, status, createdAt, estimatedTime \x7d`
  (`server-postgres.js` lines 330-338) -/
  | pgNewOrder (orderId : Nat) (tableNo : Int) (items : List OrderItem) (total : Int)
      (status : String) (createdAt : Nat) (estimatedTime : Int)
  /-- `\x7b orderId, status, estimatedTime \x7d` (`server-postgres.js` lines 341-345) -/
  | pgOrderConfirmed (orderId : Nat) (status : String) (estimatedTime : Int)
  /-- `\x7b orderId, status, updatedAt \x7d` (`server-postgres.js` lines 476-480) -/
  | pgStatusUpdate (orderId : Nat) (status : String) (updatedAt : Nat)
  /-- `\x7b orderId, status \x7d` (`server-postgres.js` lines 483-486) -/
  | pgStatusUpdated (orderId : Nat) (status : String)
  deriving DecidableEq

/-- One `io.to(room).emit(event, payload)` call. -/
structure Event where
  room : String
  event : String
  payload : Payload
  deriving DecidableEq

/-- The observable actions of one route execution, in program order: the
store write (with whether it succeeded / matched a document) and each
notifier publish. -/
inductive Act
  | storeWrite (ok : Bool)
  | publish (e : Event)
  deriving DecidableEq

/-- The events a trace publishes, in order. -/
def publishedEvents (tr : List Act) : List Event :=
  tr.filterMap fun a =>
    match a with
    | .publish e => some e
    | .storeWrite _ => none

/-- How a route ends: 2xx with a value, or the error taxonomy of spec §7
(`validation` = 400 bad input, `notFound` = 404, `dependency` = 500 from the
catch-all around a failed backend call). -/
inductive ErrKind
  | validation
  | notFound
  | dependency
  deriving DecidableEq

inductive RouteResult (α : Type)
  | ok (a : α)
  | error (kind : ErrKind) (msg : String)
  deriving DecidableEq

/-- The document-store server's state: the mongoose connection flag
(`mongoose.connection.readyState === 1`), the persisted collection, the
global `inMemoryOrders` fallback list, and a counter modelling ObjectId
assignment. -/
structure MongoState where
  connected : Bool
  dbOrders : List MongoOrder
  memOrders : List MongoOrder
  oidCounter : Nat
  deriving DecidableEq

/-- Result, post-state and action trace of one document-store route execution. -/
structure MongoOut where
  result : RouteResult MongoOrder
  state : MongoState
  trace : List Act
  deriving DecidableEq

/-- `POST /api/order` of the document-store server
(`src/unnamed/part_001` lines 170-209). -/
def mongoPlaceOrder (s : MongoState) (r : OrderReq) (now : Nat) (writeOk : Bool) : MongoOut :=
  if missingRequiredFields r then
    ⟨.error .validation "Missing required fields", s, []⟩
  else
    let tableNo := r.tableNo.getD 0
    let items := r.items.getD []
    let total := r.total.getD 0
    let estimatedTime := mongoEstimatedTime items
    if !s.connected then
      -- fallback path: push onto inMemoryOrders (no updatedAt key in the literal)
      let order : MongoOrder :=
        { _id := toString now, tableNo := tableNo, items := items, total := total,
          status := "pending", estimatedTime := estimatedTime, createdAt := now,
          updatedAt := none }
      { result := .ok order,
        state := { s with memOrders := s.memOrders ++ [order] },
        trace := [.storeWrite true,
          .publish ⟨"chef_portal", "newOrder", .mongoOrder order⟩,
          .publish ⟨"table_" ++ toString tableNo, "orderConfirmed", .mongoOrder order⟩] }
    else if writeOk then
      let order : MongoOrder :=
        { _id := "oid" ++ toString s.oidCounter, tableNo := tableNo, items := items,
          total := total, status := "pending", estimatedTime := estimatedTime,
          createdAt := now, updatedAt := some now }
      { result := .ok order,
        state := { s with
          dbOrders := s.dbOrders ++ [order]
          oidCounter := s.oidCounter + 1 },
        trace := [.storeWrite true,
          .publish ⟨"chef_portal", "newOrder", .mongoOrder order⟩,
          .publish ⟨"table_" ++ toString tableNo, "orderConfirmed", .mongoOrder order⟩] }
    else
      -- order.save() threw: catch returns 500, nothing was emitted
      ⟨.error .dependency "Error creating order", s, [.storeWrite false]⟩

/-- `GET /api/order/:id` of the document-store server
(`src/unnamed/part_001` lines 212-228): the fallback list is consulted only
when the connection is down. -/
def mongoGetOrder (s : MongoState) (id : String) : RouteResult MongoOrder :=
  if !s.connected then
    match s.memOrders.find? (fun o => o._id == id) with
    | none => .error .notFound "Order not found"
    | some o => .ok o
  else
    match s.dbOrders.find? (fun o => o._id == id) with
    | none => .error .notFound "Order not found"
    | some o => .ok o

/-- The query string of `GET /api/orders`: `status` and `tableNo` parameters. -/
structure OrdersQuery where
  status : Option String := none
  tableNo : Option Int := none
  deriving DecidableEq

/-- The status filter of the document-store `GET /api/orders`
(`filter = status ? \x7b status \x7d : \x7b\x7d`, `part_001` line 234). -/
def matchesStatusFilter (q : OrdersQuery) (o : MongoOrder) : Bool :=
  if truthyStr q.status then o.status == q.status.getD "" else true

/-- Insert into a list kept sorted by `key` descending. -/
def insertDesc {α : Type} (key : α → Nat) (a : α) : List α → List α
  | [] => [a]
  | b :: l => if key b ≤ key a then a :: b :: l else b :: insertDesc key a l

/-- Sort by `key` descending (`.sort(\x7b createdAt: -1 \x7d)` / `ORDER BY created_at DESC`). -/
def sortDesc {α : Type} (key : α → Nat) : List α → List α
  | [] => []
  | a :: l => insertDesc key a (sortDesc key l)

/-- `GET /api/orders` of the document-store server
(`src/unnamed/part_001` lines 231-241): only `status` is destructured from the
query — the `tableNo` parameter of `q` is never consulted — and the find runs
against the database alone (a down connection makes it fail, hence 500). -/
def mongoListOrders (s : MongoState) (q : OrdersQuery) : RouteResult (List MongoOrder) :=
  if !s.connected then
    .error .dependency "Error fetching orders"
  else
    .ok (sortDesc (fun o => o.createdAt) (s.dbOrders.filter (matchesStatusFilter q)))

/-- The document collection after `findByIdAndUpdate`: every document whose
`_id` matches is replaced by the updated document. -/
def mongoReplace (id : String) (u : MongoOrder) (l : List MongoOrder) : List MongoOrder :=
  l.map (fun x => if x._id == id then u else x)

/-- The `orders` table after an `UPDATE ... WHERE id = $1`: every row whose id
matches is replaced by the updated row. -/
def pgReplace (pid : Nat) (u : PgOrder) (l : List PgOrder) : List PgOrder :=
  l.map (fun x => if x.id == pid then u else x)

/-- `PUT /api/order/:id/status` of the document-store server
(`src/unnamed/part_001` lines 244-276).  `findByIdAndUpdate` is called
unconditionally: with the connection down the buffered call fails and the
catch returns 500; the fallback list is never consulted nor modified. -/
def mongoUpdateStatus (s : MongoState) (id : String) (status : Option String)
    (now : Nat) : MongoOut :=
  if !isValidStatus status then
    ⟨.error .validation "Invalid status", s, []⟩
  else
    let st := status.getD ""
    if !s.connected then
      ⟨.error .dependency "Error updating order", s, [.storeWrite false]⟩
    else
      match s.dbOrders.find? (fun o => o._id == id) with
      | none => ⟨.error .notFound "Order not found", s, [.storeWrite false]⟩
      | some o =>
        let updated : MongoOrder := { o with status := st, updatedAt := some now }
        { result := .ok updated,
          state := { s with dbOrders := mongoReplace id updated s.dbOrders },
          trace := [.storeWrite true,
            .publish ⟨"table_" ++ toString updated.tableNo, "orderStatusUpdate",
              .mongoStatus updated._id updated.status⟩,
            .publish ⟨"chef_portal", "orderStatusUpdated",
              .mongoStatus updated._id updated.status⟩] }

/-- The relational server's store state: the `orders` table and the next
SERIAL id. -/
structure PgState where
  orders : List PgOrder
  nextId : Nat
  deriving DecidableEq

/-- Result, post-state and action trace of one relational route execution. -/
structure PgOut where
  result : RouteResult PgOrder
  state : PgState
  trace : List Act
  deriving DecidableEq

/-- Modelled from the spec: `Order.create` of `./models/Order.js` is not under
`src/`; per §4.1/§9 the store "assigns identity and timestamps" on create, so
the row gets the next SERIAL id, the given fields, and both timestamps set to
the current time. -/
def pgCreate (s : PgState) (tableNo : Int) (items : List OrderItem) (total : Int)
    (estimatedTime : Int) (status : String) (now : Nat) : PgOrder × PgState :=
  let o : PgOrder :=
    { id := s.nextId, table_no := tableNo, items := items, total := total,
      status := status, estimated_time := estimatedTime, created_at := now,
      updated_at := now }
  (o, { orders := s.orders ++ [o], nextId := s.nextId + 1 })

/-- Modelled from the spec: `Order.findById` of `./models/Order.js` is not
under `src/`; it looks the row up by primary key. -/
def pgFindById (s : PgState) (id : Nat) : Option PgOrder :=
  s.orders.find? (fun o => o.id == id)

/-- Modelled from the spec: `Order.updateStatus` of `./models/Order.js` is not
under `src/`; per §4.1 a successful update sets the status and "updates the
updatedAt timestamp", returning the updated row, or nothing when no row has
that id. -/
def pgUpdateStatusDb (s : PgState) (id : Nat) (st : String) (now : Nat) :
    Option PgOrder × PgState :=
  match pgFindById s id with
  | none => (none, s)
  | some o =>
    let updated : PgOrder := { o with status := st, updated_at := now }
    (some updated, { s with orders := pgReplace id updated s.orders })

/-- Whether a row matches the optional `status` and `tableNo` filters. -/
def pgMatchesFilters (status : Option String) (tableNo : Option Int) (o : PgOrder) : Bool :=
  (match status with
   | none => true
   | some st => o.status == st) &&
  (match tableNo with
   | none => true
   | some t => o.table_no == t)

/-- Modelled from the spec: `Order.findAll(filters)` of `./models/Order.js` is
not under `src/`; per §4.1 it returns the orders matching the optional
`status` and `tableNo` filters, ordered by creation time descending (the
spec's stated design decision). -/
def pgFindAll (s : PgState) (status : Option String) (tableNo : Option Int) :
    List PgOrder :=
  sortDesc (fun o => o.created_at) (s.orders.filter (pgMatchesFilters status tableNo))

/-- `POST /api/order` of the relational server
(`src/server-postgres.js` lines 308-368). -/
def pgPlaceOrder (s : PgState) (r : OrderReq) (now : Nat) (writeOk : Bool) : PgOut :=
  if missingRequiredFields r then
    ⟨.error .validation "Missing required fields: tableNo, items, total", s, []⟩
  else
    let tableNo := r.tableNo.getD 0
    let items := r.items.getD []
    let total := r.total.getD 0
    let estimatedTime := pgEstimatedTime items
    if writeOk then
      let created := pgCreate s tableNo items total estimatedTime "pending" now
      let order := created.1
      { result := .ok order,
        state := created.2,
        trace := [.storeWrite true,
          .publish ⟨"chef_portal", "newOrder",
            .pgNewOrder order.id order.table_no order.items order.total order.status
              order.created_at order.estimated_time⟩,
          .publish ⟨"table_" ++ toString tableNo, "orderConfirmed",
            .pgOrderConfirmed order.id order.status order.estimated_time⟩] }
    else
      -- Order.create threw: catch returns 500, nothing was emitted
      ⟨.error .dependency "Create order error", s, [.storeWrite false]⟩

/-- `GET /api/order/:id` of the relational server
(`src/server-postgres.js` lines 371-402). -/
def pgGetOrder (s : PgState) (id : Nat) : RouteResult PgOrder :=
  match pgFindById s id with
  | none => .error .notFound "Order not found"
  | some o => .ok o

/-- `GET /api/orders` of the relational server
(`src/server-postgres.js` lines 405-439): both query parameters are passed to
the store as filters (a provided parameter is truthy and parsed). -/
def pgListOrders (s : PgState) (q : OrdersQuery) : RouteResult (List PgOrder) :=
  .ok (pgFindAll s (if truthyStr q.status then q.status else none) q.tableNo)

/-- `PUT /api/order/:id/status` of the relational server
(`src/server-postgres.js` lines 442-509).  `orderId = none` models a missing,
`'undefined'` or unparseable `:id` (`isNaN(parseInt(orderId))`).  After a
successful update the route re-reads the full row for the socket payloads
(line 473). -/
def pgUpdateStatus (s : PgState) (orderId : Option Nat) (status : Option String)
    (now : Nat) : PgOut :=
  match orderId with
  | none => ⟨.error .validation "Invalid order ID", s, []⟩
  | some id =>
    if !isValidStatus status then
      ⟨.error .validation "Invalid status", s, []⟩
    else
      let st := status.getD ""
      match pgUpdateStatusDb s id st now with
      | (none, _) => ⟨.error .notFound "Order not found", s, [.storeWrite false]⟩
      | (some _, s1) =>
        match pgFindById s1 id with
        | none =>
          -- unreachable: the row just updated is present; reading a field of
          -- null would throw, surfacing as the catch-all 500
          ⟨.error .dependency "Cannot read properties of null", s1, [.storeWrite true]⟩
        | some fullOrder =>
          { result := .ok fullOrder,
            state := s1,
            trace := [.storeWrite true,
              .publish ⟨"table_" ++ toString fullOrder.table_no, "orderStatusUpdate",
                .pgStatusUpdate fullOrder.id fullOrder.status fullOrder.updated_at⟩,
              .publish ⟨"chef_portal", "orderStatusUpdated",
                .pgStatusUpdated fullOrder.id fullOrder.status⟩] }

/-- One step of the document-store server: an order placement, a status
update, or the environment changing the connection state. -/
inductive MongoStep : MongoState → MongoState → Prop
  | place (s : MongoState) (r : OrderReq) (now : Nat) (writeOk : Bool) :
      MongoStep s (mongoPlaceOrder s r now writeOk).state
  | update (s : MongoState) (id : String) (status : Option String) (now : Nat) :
      MongoStep s (mongoUpdateStatus s id status now).state
  | conn (s : MongoState) (b : Bool) : MongoStep s { s with connected := b }

/-- The document-store server's start state: empty collection, empty
`inMemoryOrders`, either connection state. -/
def mongoStart (c : Bool) : MongoState :=
  { connected := c, dbOrders := [], memOrders := [], oidCounter := 0 }

/-- States the document-store server can reach from a start state. -/
inductive MongoReachable : MongoState → Prop
  | start (c : Bool) : MongoReachable (mongoStart c)
  | step {s t : MongoState} : MongoReachable s → MongoStep s t → MongoReachable t

/-- One step of the relational server: an order placement or a status update. -/
inductive PgStep : PgState → PgState → Prop
  | place (s : PgState) (r : OrderReq) (now : Nat) (writeOk : Bool) :
      PgStep s (pgPlaceOrder s r now writeOk).state
  | update (s : PgState) (orderId : Option Nat) (status : Option String) (now : Nat) :
      PgStep s (pgUpdateStatus s orderId status now).state

/-- The relational server's start state: empty table, SERIAL counter at 1. -/
def pgStart : PgState := { orders := [], nextId := 1 }

/-- States the relational server can reach from the start state. -/
inductive PgReachable : PgState → Prop
  | start : PgReachable pgStart
  | step {s t : PgState} : PgReachable s → PgStep s t → PgReachable t

/-- The claim's (C2, as stated) per-item preparation estimate: the item's
prepTime, taking 15 only for an item whose prepTime is absent. -/
def specItemPrep (it : OrderItem) : Int :=
  it.prepTime.getD 15

/-- The claim's (C2, as stated) estimate: the maximum over items of
`specItemPrep` plus 5. -/
def specEstimatedTime (items : List OrderItem) : Int :=
  mathMax (items.map specItemPrep) + 5

/-- A preparation-time field as the code actually consumes it: a zero value
falls through like an absent one (JS falsiness of `0`). -/
def specPrepField : Option Int → Option Int
  | none => none
  | some p => if p = 0 then none else some p

/-- Amended per-item estimate, document-store server: `prepTime`, treating
absent and zero alike, default 15. -/
def specItemPrepMongo (it : OrderItem) : Int :=
  (specPrepField it.prepTime).getD 15

/-- Amended per-item estimate, relational server: `prepTime`, falling back to
`prep_time`, treating absent and zero alike, default 15. -/
def specItemPrepPg (it : OrderItem) : Int :=
  match specPrepField it.prepTime with
  | some p => p
  | none => (specPrepField it.prep_time).getD 15

/-- The JS object keys each emitted payload shape carries (the in-memory
fallback order literal has no `updatedAt` key). -/
def Payload.fields : Payload → List String
  | .mongoOrder o =>
    ["_id", "tableNo", "items", "total", "status", "createdAt"] ++
      (match o.updatedAt with
       | some _ => ["updatedAt"]
       | none => []) ++ ["estimatedTime"]
  | .mongoStatus _ _ => ["orderId", "status"]
  | .pgNewOrder _ _ _ _ _ _ _ =>
    ["orderId", "tableNo", "items", "total", "status", "createdAt", "estimatedTime"]
  | .pgOrderConfirmed _ _ _ => ["orderId", "status", "estimatedTime"]
  | .pgStatusUpdate _ _ _ => ["orderId", "status", "updatedAt"]
  | .pgStatusUpdated _ _ => ["orderId", "status"]

/-- The spec's (§6) full order record: the field set a payload must determine
to carry the full order snapshot. -/
def fullSnapshotFieldCount : Nat := 8

/-- Sorted descending by `key`: each element's key is at least its successor's. -/
def sortedByDesc {α : Type} (key : α → Nat) (l : List α) : Prop :=
  l.Chain' (fun x y => key y ≤ key x)

/-- Every publish in the trace is preceded by a successful store write. -/
def publishesOnlyAfterWrite (tr : List Act) : Prop :=
  ∀ pre e post, tr = pre ++ Act.publish e :: post → Act.storeWrite true ∈ pre

/-- Every persisted order of the document-store server (database collection
and in-memory fallback list alike) has one of the six recognized statuses. -/
def mongoStatusesValid (s : MongoState) : Prop :=
  (∀ o ∈ s.dbOrders, o.status ∈ validStatuses) ∧
  (∀ o ∈ s.memOrders, o.status ∈ validStatuses)

/-- Every persisted order of the relational server has one of the six
recognized statuses. -/
def pgStatusesValid (p : PgState) : Prop :=
  ∀ o ∈ p.orders, o.status ∈ validStatuses

/-- The spec's §8 example item: Pizza, price 349, quantity 2, prepTime 20. -/
def pizzaItem : OrderItem :=
  { name := "Pizza", price := 349, quantity := 2, category := "main", prepTime := some 20 }

/-- The spec's §8 example request: table 4, one pizza line, total 698. -/
def pizzaReq : OrderReq :=
  { tableNo := some 4, items := some [pizzaItem], total := some 698 }

/-- A request with a negative (hence truthy) table number. -/
def reqNegTable : OrderReq :=
  { tableNo := some (-1), items := some [pizzaItem], total := some 698 }

/-- A request with a negative (hence truthy) total. -/
def reqNegTotal : OrderReq :=
  { tableNo := some 4, items := some [pizzaItem], total := some (-5) }

/-- An item whose prepTime is present but zero. -/
def teaItem : OrderItem :=
  { name := "Tea", price := 20, quantity := 1, category := "beverage", prepTime := some 0 }

/-- A valid request (positive table number, non-empty items, positive total)
whose single item has prepTime zero. -/
def teaReq : OrderReq :=
  { tableNo := some 4, items := some [teaItem], total := some 20 }

/-- The document the document-store server creates for `teaReq`. -/
def teaOrder : MongoOrder :=
  { _id := "oid0", tableNo := 4, items := [teaItem], total := 20, status := "pending",
    estimatedTime := 20, createdAt := 1000, updatedAt := some 1000 }

/-- A persisted document last updated at time 1000. -/
def ordA : MongoOrder :=
  { _id := "oid0", tableNo := 4, items := [pizzaItem], total := 698, status := "pending",
    estimatedTime := 25, createdAt := 1000, updatedAt := some 1000 }

/-- A document-store state holding exactly `ordA`. -/
def stA : MongoState :=
  { connected := true, dbOrders := [ordA], memOrders := [], oidCounter := 1 }

/-- A persisted relational row last updated at time 900. -/
def rowA : PgOrder :=
  { id := 1, table_no := 4, items := [pizzaItem], total := 698, status := "pending",
    estimated_time := 25, created_at := 900, updated_at := 900 }

/-- A relational state holding exactly `rowA`. -/
def pstA : PgState :=
  { orders := [rowA], nextId := 2 }

/-! ### Helper lemmas -/

theorem jsOrInt_eq_specPrepField (v : Option Int) :
    jsOrInt v 15 = (specPrepField v).getD 15 := by
  cases v with
  | none => rfl
  | some p =>
    by_cases hp : p = 0
    · subst hp; rfl
    · simp [jsOrInt, truthyInt, specPrepField, hp]

theorem jsOrInt2_eq_specItemPrepPg (it : OrderItem) :
    jsOrInt2 it.prepTime it.prep_time 15 = specItemPrepPg it := by
  unfold jsOrInt2 specItemPrepPg
  cases it.prepTime with
  | none =>
    simp only [truthyInt, Bool.false_eq_true, if_false]
    exact jsOrInt_eq_specPrepField _
  | some p =>
    by_cases hp : p = 0
    · subst hp
      simp only [truthyInt, specPrepField, if_pos rfl]
      simpa using jsOrInt_eq_specPrepField _
    · simp [truthyInt, specPrepField, hp]

theorem mongoEstimatedTime_eq_amended (items : List OrderItem) :
    mongoEstimatedTime items = mathMax (items.map specItemPrepMongo) + 5 := by
  have h : (fun it => jsOrInt it.prepTime 15) = specItemPrepMongo := by
    funext it
    exact jsOrInt_eq_specPrepField it.prepTime
  rw [mongoEstimatedTime, h]

theorem pgEstimatedTime_eq_amended (items : List OrderItem) :
    pgEstimatedTime items = mathMax (items.map specItemPrepPg) + 5 := by
  have h : (fun it => jsOrInt2 it.prepTime it.prep_time 15) = specItemPrepPg := by
    funext it
    exact jsOrInt2_eq_specItemPrepPg it
  rw [pgEstimatedTime, h]

theorem find?_map_replace {α : Type} (p : α → Bool) (a : α) (ha : p a = true) :
    ∀ l : List α, (l.find? p).isSome = true →
      (l.map (fun x => if p x then a else x)).find? p = some a := by
  intro l
  induction l with
  | nil => intro hl; simp at hl
  | cons b t ih =>
    intro hl
    by_cases hb : p b = true
    · rw [List.map_cons, if_pos hb, List.find?_cons_of_pos _ ha]
    · rw [List.find?_cons_of_neg _ hb] at hl
      rw [List.map_cons, if_neg hb, List.find?_cons_of_neg _ hb]
      exact ih hl

theorem insertDesc_perm {α : Type} (key : α → Nat) (a : α) :
    ∀ l : List α, (insertDesc key a l).Perm (a :: l) := by
  intro l
  induction l with
  | nil => exact List.Perm.refl _
  | cons b t ih =>
    rw [insertDesc]
    by_cases h : key b ≤ key a
    · rw [if_pos h]
    · rw [if_neg h]
      exact (ih.cons b).trans (List.Perm.swap a b t)

theorem sortDesc_perm {α : Type} (key : α → Nat) :
    ∀ l : List α, (sortDesc key l).Perm l := by
  intro l
  induction l with
  | nil => exact List.Perm.refl _
  | cons a t ih =>
    rw [sortDesc]
    exact (insertDesc_perm key a _).trans (ih.cons a)

theorem insertDesc_head_cases {α : Type} (key : α → Nat) (a x : α) :
    ∀ l : List α, (insertDesc key a l).head? = some x → x = a ∨ l.head? = some x := by
  intro l hx
  cases l with
  | nil =>
    rw [insertDesc] at hx
    exact Or.inl (by simpa using hx.symm)
  | cons b t =>
    rw [insertDesc] at hx
    by_cases h : key b ≤ key a
    · rw [if_pos h] at hx
      exact Or.inl (by simpa using hx.symm)
    · rw [if_neg h] at hx
      exact Or.inr (by simpa using hx)

theorem insertDesc_sorted {α : Type} (key : α → Nat) (a : α) :
    ∀ l : List α, sortedByDesc key l → sortedByDesc key (insertDesc key a l) := by
  intro l
  induction l with
  | nil => intro _; simp [insertDesc, sortedByDesc]
  | cons b t ih =>
    intro h
    rcases List.chain'_cons'.mp h with ⟨hb, ht⟩
    rw [insertDesc]
    by_cases hba : key b ≤ key a
    · rw [if_pos hba]
      exact List.chain'_cons'.mpr ⟨fun y hy => by simp at hy; subst hy; exact hba, h⟩
    · rw [if_neg hba]
      refine List.chain'_cons'.mpr ⟨?_, ih ht⟩
      intro y hy
      rcases insertDesc_head_cases key a y t hy with rfl | hyt
      · exact le_of_not_le hba
      · exact hb y hyt

theorem sortDesc_sorted {α : Type} (key : α → Nat) :
    ∀ l : List α, sortedByDesc key (sortDesc key l) := by
  intro l
  induction l with
  | nil => simp [sortDesc, sortedByDesc]
  | cons a t ih =>
    rw [sortDesc]
    exact insertDesc_sorted key a _ ih

theorem publishesOnlyAfterWrite_nil : publishesOnlyAfterWrite [] := by
  intro pre e post h
  simp at h

theorem publishesOnlyAfterWrite_failed :
    publishesOnlyAfterWrite [Act.storeWrite false] := by
  intro pre e post h
  cases pre with
  | nil => simp at h
  | cons a t => simp_all

theorem publishesOnlyAfterWrite_writeOk (evs : List Event) :
    publishesOnlyAfterWrite (Act.storeWrite true :: evs.map Act.publish) := by
  intro pre e post h
  cases pre with
  | nil =>
    rw [List.nil_append] at h
    exact absurd (List.head_eq_of_cons_eq h) (by simp)
  | cons a t =>
    rw [List.cons_append] at h
    rw [List.head_eq_of_cons_eq h]
    exact List.mem_cons_self _ _

/-! ### C1: create-order validation -/

/-- C1 counterexample: the claim says placeOrder fails with a ValidationError
whenever tableNo is not a positive integer or total is not positive, but a
request with tableNo = -1 (document-store server) and one with total = -5
(relational server) are both accepted: the order is stored and two events are
published. -/
theorem placeOrder_accepts_nonpositive :
    (∃ o, (mongoPlaceOrder (mongoStart true) reqNegTable 1000 true).result = .ok o) ∧
    (mongoPlaceOrder (mongoStart true) reqNegTable 1000 true).state ≠ mongoStart true ∧
    publishedEvents (mongoPlaceOrder (mongoStart true) reqNegTable 1000 true).trace ≠ [] ∧
    (∃ o, (pgPlaceOrder pgStart reqNegTotal 1000 true).result = .ok o) ∧
    (pgPlaceOrder pgStart reqNegTotal 1000 true).state ≠ pgStart ∧
    publishedEvents (pgPlaceOrder pgStart reqNegTotal 1000 true).trace ≠ [] := by
  refine ⟨⟨_, rfl⟩, by decide, by decide, ⟨_, rfl⟩, by decide, by decide⟩

/-- C1 (amended): placeOrder fails with a ValidationError whenever tableNo is
absent or zero, or items is absent or an empty sequence, or total is absent or
zero (the JS truthiness check of both routes); on every such validation
failure no store write happens and no event is published — the state is
returned unchanged and the action trace is empty.  Holds for both servers. -/
theorem placeOrder_validation_no_write (s : MongoState) (p : PgState) (r : OrderReq)
    (now : Nat) (writeOk : Bool)
    (h : r.tableNo = none ∨ r.tableNo = some 0 ∨ r.items = none ∨ r.items = some [] ∨
         r.total = none ∨ r.total = some 0) :
    mongoPlaceOrder s r now writeOk =
      ⟨.error .validation "Missing required fields", s, []⟩ ∧
    pgPlaceOrder p r now writeOk =
      ⟨.error .validation "Missing required fields: tableNo, items, total", p, []⟩ := by
  have hm : missingRequiredFields r = true := by
    rcases h with h | h | h | h | h | h <;>
      simp [missingRequiredFields, truthyInt, h]
  constructor
  · rw [mongoPlaceOrder, if_pos hm]
  · rw [pgPlaceOrder, if_pos hm]

/-- Witness for `placeOrder_validation_no_write` at the concrete request
with an empty items array. -/
theorem placeOrder_validation_no_write_witness :
    mongoPlaceOrder (mongoStart true)
        { tableNo := some 4, items := some [], total := some 698 } 5 true =
      ⟨.error .validation "Missing required fields", mongoStart true, []⟩ ∧
    pgPlaceOrder pgStart
        { tableNo := some 4, items := some [], total := some 698 } 5 true =
      ⟨.error .validation "Missing required fields: tableNo, items, total", pgStart, []⟩ :=
  placeOrder_validation_no_write (mongoStart true) pgStart
    { tableNo := some 4, items := some [], total := some 698 } 5 true
    (Or.inr (Or.inr (Or.inr (Or.inl rfl))))

/-! ### C2: status pending and estimated time -/

/-- C2 counterexample: `teaReq` is valid as the claim demands (table number
4 > 0, one item, total 20 > 0), yet the created order's estimatedTime is 20
(the code treats the present-but-zero prepTime as absent, `0 || 15 = 15`),
while the claim's formula gives max(prepTimes) + 5 = 0 + 5 = 5. -/
theorem placeOrder_estimate_zero_prepTime :
    (0 : Int) < 4 ∧ [teaItem] ≠ [] ∧ (0 : Int) < 20 ∧
    (mongoPlaceOrder (mongoStart true) teaReq 1000 true).result = .ok teaOrder ∧
    teaOrder.estimatedTime ≠ specEstimatedTime [teaItem] := by
  refine ⟨by decide, by decide, by decide, rfl, by decide⟩

/-- C2 (amended): for every valid placeOrder input (tableNo a positive
integer, items non-empty, total positive) the returned order has status
`pending` and estimatedTime equal to the maximum over items of the item's
prepTime plus 5, where 15 stands in for a prepTime that is absent **or
zero** (and the relational server also falls back to a `prep_time` spelling
before defaulting). -/
theorem placeOrder_pending_and_estimate (s : MongoState) (p : PgState) (r : OrderReq)
    (now : Nat) (t tot : Int) (items : List OrderItem)
    (ht : r.tableNo = some t) (ht0 : 0 < t)
    (hi : r.items = some items) (hne : items ≠ [])
    (htot : r.total = some tot) (htot0 : 0 < tot) :
    (∃ o, (mongoPlaceOrder s r now true).result = .ok o ∧ o.status = "pending" ∧
       o.estimatedTime = mathMax (items.map specItemPrepMongo) + 5) ∧
    (∃ o, (pgPlaceOrder p r now true).result = .ok o ∧ o.status = "pending" ∧
       o.estimated_time = mathMax (items.map specItemPrepPg) + 5) := by
  have hm : missingRequiredFields r = false := by
    simp [missingRequiredFields, truthyInt, ht, hi, htot, ht0.ne', htot0.ne', hne]
  constructor
  · rw [mongoPlaceOrder, if_neg (by simp [hm])]
    by_cases hc : s.connected
    · simp only [hc, Bool.not_true, Bool.false_eq_true, if_false]
      exact ⟨_, rfl, rfl, by simp [hi, mongoEstimatedTime_eq_amended]⟩
    · have hc' : s.connected = false := by simpa using hc
      simp only [hc', Bool.not_false, if_true]
      exact ⟨_, rfl, rfl, by simp [hi, mongoEstimatedTime_eq_amended]⟩
  · rw [pgPlaceOrder, if_neg (by simp [hm])]
    simp only [if_true]
    exact ⟨_, rfl, rfl, by simp [hi, pgEstimatedTime_eq_amended, pgCreate]⟩

/-- Witness for `placeOrder_pending_and_estimate` at the spec's §8 pizza
example (expected estimate 20 + 5 = 25). -/
theorem placeOrder_pending_and_estimate_witness :
    (∃ o, (mongoPlaceOrder (mongoStart true) pizzaReq 1000 true).result = .ok o ∧
       o.status = "pending" ∧
       o.estimatedTime = mathMax ([pizzaItem].map specItemPrepMongo) + 5) ∧
    (∃ o, (pgPlaceOrder pgStart pizzaReq 1000 true).result = .ok o ∧
       o.status = "pending" ∧
       o.estimated_time = mathMax ([pizzaItem].map specItemPrepPg) + 5) :=
  placeOrder_pending_and_estimate (mongoStart true) pgStart pizzaReq 1000 4 698 [pizzaItem]
    rfl (by decide) rfl (by decide) rfl (by decide)

/-! ### C3: the two events of a successful placeOrder -/

/-- C3 counterexample: on the relational server's successful placeOrder for
the spec's §8 pizza example, exactly two events are published, but the
`orderConfirmed` payload carries only orderId, status and estimatedTime — no
items key (nor tableNo, total, createdAt, updatedAt) — and even the `newOrder`
payload has no updatedAt key, so neither is the full order snapshot. -/
theorem placeOrder_confirmed_payload_partial :
    publishedEvents (pgPlaceOrder pgStart pizzaReq 1000 true).trace =
      [⟨"chef_portal", "newOrder", .pgNewOrder 1 4 [pizzaItem] 698 "pending" 1000 25⟩,
       ⟨"table_4", "orderConfirmed", .pgOrderConfirmed 1 "pending" 25⟩] ∧
    "items" ∉ (Payload.pgOrderConfirmed 1 "pending" 25).fields ∧
    (Payload.pgOrderConfirmed 1 "pending" 25).fields.length < fullSnapshotFieldCount ∧
    "updatedAt" ∉ (Payload.pgNewOrder 1 4 [pizzaItem] 698 "pending" 1000 25).fields := by
  refine ⟨rfl, by decide, by decide, by decide⟩

/-- C3 (amended): every successful placeOrder publishes exactly two events, a
`newOrder` event to the kitchen room `chef_portal` and an `orderConfirmed`
event to the placing table's room.  On the document-store server both
payloads are the full order object; on the relational server `newOrder`
carries orderId, tableNo, items, total, status, createdAt and estimatedTime
(no updatedAt), and `orderConfirmed` carries only orderId, status and
estimatedTime. -/
theorem placeOrder_publishes_two_events (s : MongoState) (p : PgState) (r : OrderReq)
    (now : Nat) (w : Bool) (o : MongoOrder) (q : PgOrder)
    (hm : (mongoPlaceOrder s r now w).result = .ok o)
    (hp : (pgPlaceOrder p r now w).result = .ok q) :
    publishedEvents (mongoPlaceOrder s r now w).trace =
      [⟨"chef_portal", "newOrder", .mongoOrder o⟩,
       ⟨"table_" ++ toString o.tableNo, "orderConfirmed", .mongoOrder o⟩] ∧
    publishedEvents (pgPlaceOrder p r now w).trace =
      [⟨"chef_portal", "newOrder",
         .pgNewOrder q.id q.table_no q.items q.total q.status q.created_at
           q.estimated_time⟩,
       ⟨"table_" ++ toString q.table_no, "orderConfirmed",
         .pgOrderConfirmed q.id q.status q.estimated_time⟩] := by
  constructor
  · by_cases h1 : missingRequiredFields r
    · rw [mongoPlaceOrder, if_pos h1] at hm
      exact RouteResult.noConfusion hm
    · rw [mongoPlaceOrder, if_neg h1] at hm
      rw [mongoPlaceOrder, if_neg h1]
      cases hcs : s.connected with
      | false =>
        simp only [hcs, Bool.not_false, if_true] at hm ⊢
        injection hm with h
        subst h
        rfl
      | true =>
        simp only [hcs, Bool.not_true, Bool.false_eq_true, if_false] at hm ⊢
        cases w with
        | false =>
          simp only [Bool.false_eq_true, if_false] at hm
          exact RouteResult.noConfusion hm
        | true =>
          simp only [if_true] at hm ⊢
          injection hm with h
          subst h
          rfl
  · by_cases h1 : missingRequiredFields r
    · rw [pgPlaceOrder, if_pos h1] at hp
      exact RouteResult.noConfusion hp
    · rw [pgPlaceOrder, if_neg h1] at hp
      rw [pgPlaceOrder, if_neg h1]
      cases w with
      | false =>
        simp only [Bool.false_eq_true, if_false] at hp
        exact RouteResult.noConfusion hp
      | true =>
        simp only [if_true] at hp ⊢
        injection hp with h
        subst h
        rfl

/-- Witness for `placeOrder_publishes_two_events` at the spec's §8 pizza
example on both servers. -/
theorem placeOrder_publishes_two_events_witness :
    publishedEvents (mongoPlaceOrder (mongoStart true) pizzaReq 1000 true).trace =
      [⟨"chef_portal", "newOrder", .mongoOrder
         { _id := "oid0", tableNo := 4, items := [pizzaItem], total := 698,
           status := "pending", estimatedTime := 25, createdAt := 1000,
           updatedAt := some 1000 }⟩,
       ⟨"table_" ++ toString (4 : Int), "orderConfirmed", .mongoOrder
         { _id := "oid0", tableNo := 4, items := [pizzaItem], total := 698,
           status := "pending", estimatedTime := 25, createdAt := 1000,
           updatedAt := some 1000 }⟩] ∧
    publishedEvents (pgPlaceOrder pgStart pizzaReq 1000 true).trace =
      [⟨"chef_portal", "newOrder", .pgNewOrder 1 4 [pizzaItem] 698 "pending" 1000 25⟩,
       ⟨"table_" ++ toString (4 : Int), "orderConfirmed",
         .pgOrderConfirmed 1 "pending" 25⟩] :=
  placeOrder_publishes_two_events (mongoStart true) pgStart pizzaReq 1000 true
    { _id := "oid0", tableNo := 4, items := [pizzaItem], total := 698,
      status := "pending", estimatedTime := 25, createdAt := 1000,
      updatedAt := some 1000 }
    { id := 1, table_no := 4, items := [pizzaItem], total := 698,
      status := "pending", estimated_time := 25, created_at := 1000,
      updated_at := 1000 }
    rfl rfl

/-! ### C4: unrecognized status is rejected without effect -/

/-- C4: for every order id and every newStatus string outside the six
recognized values, updateStatus fails with a ValidationError, the store is
left entirely unchanged, and no event is published — on both servers (the
relational route may answer `Invalid order ID` instead of `Invalid status`
when the id itself does not parse, still a ValidationError). -/
theorem updateStatus_invalid_status_rejected (s : MongoState) (p : PgState)
    (id : String) (pid : Option Nat) (st : String) (now : Nat)
    (h : st ∉ validStatuses) :
    mongoUpdateStatus s id (some st) now =
      ⟨.error .validation "Invalid status", s, []⟩ ∧
    (∃ msg, pgUpdateStatus p pid (some st) now = ⟨.error .validation msg, p, []⟩) := by
  have hv : isValidStatus (some st) = false := by
    simp only [isValidStatus]
    simpa using h
  constructor
  · rw [mongoUpdateStatus, if_pos (by simp [hv])]
  · cases pid with
    | none => exact ⟨"Invalid order ID", rfl⟩
    | some n =>
      refine ⟨"Invalid status", ?_⟩
      rw [pgUpdateStatus]
      rw [if_pos (by simp [hv])]

/-- Witness for `updateStatus_invalid_status_rejected` at the unrecognized
status string `eaten`. -/
theorem updateStatus_invalid_status_rejected_witness :
    mongoUpdateStatus stA "oid0" (some "eaten") 2000 =
      ⟨.error .validation "Invalid status", stA, []⟩ ∧
    (∃ msg, pgUpdateStatus pstA (some 1) (some "eaten") 2000 =
      ⟨.error .validation msg, pstA, []⟩) :=
  updateStatus_invalid_status_rejected stA pstA "oid0" (some 1) "eaten" 2000 (by decide)

/-! ### C5: missing order id -/

/-- C5: when no order with the given id exists in the (reachable) store,
updateStatus with a recognized status fails with a NotFoundError and getOrder
fails with a NotFoundError, on both servers; the document-store half assumes
the database connection is up, since a down connection fails the buffered
call with a DependencyError instead (spec §7's separate taxonomy case). -/
theorem missing_order_not_found (s : MongoState) (p : PgState) (id : String)
    (pid : Nat) (st : String) (now : Nat)
    (hc : s.connected = true)
    (hdb : s.dbOrders.find? (fun o => o._id == id) = none)
    (hpg : pgFindById p pid = none)
    (hst : st ∈ validStatuses) :
    mongoUpdateStatus s id (some st) now =
      ⟨.error .notFound "Order not found", s, [.storeWrite false]⟩ ∧
    mongoGetOrder s id = .error .notFound "Order not found" ∧
    pgUpdateStatus p (some pid) (some st) now =
      ⟨.error .notFound "Order not found", p, [.storeWrite false]⟩ ∧
    pgGetOrder p pid = .error .notFound "Order not found" := by
  have hv : isValidStatus (some st) = true := by
    simp only [isValidStatus]
    simpa using hst
  refine ⟨?_, ?_, ?_, ?_⟩
  · rw [mongoUpdateStatus, if_neg (by simp [hv])]
    simp only [hc, Bool.not_true, Bool.false_eq_true, if_false, hdb]
  · rw [mongoGetOrder, if_neg (by simp [hc])]
    rw [hdb]
  · rw [pgUpdateStatus]
    rw [if_neg (by simp [hv])]
    simp only [pgUpdateStatusDb, hpg]
  · rw [pgGetOrder, hpg]

/-- Witness for `missing_order_not_found` at id `oid9` / 9, absent from the
one-order stores `stA` and `pstA`. -/
theorem missing_order_not_found_witness :
    mongoUpdateStatus stA "oid9" (some "ready") 2000 =
      ⟨.error .notFound "Order not found", stA, [.storeWrite false]⟩ ∧
    mongoGetOrder stA "oid9" = .error .notFound "Order not found" ∧
    pgUpdateStatus pstA (some 9) (some "ready") 2000 =
      ⟨.error .notFound "Order not found", pstA, [.storeWrite false]⟩ ∧
    pgGetOrder pstA 9 = .error .notFound "Order not found" :=
  missing_order_not_found stA pstA "oid9" 9 "ready" 2000 rfl (by decide) (by decide)
    (by decide)

/-! ### C6: successful updateStatus and the updatedAt timestamp -/

/-- C6 counterexample: `ordA` was last written at time 1000; a successful
updateStatus in the same millisecond (now = 1000) returns and persists
updatedAt = 1000, which is not strictly later than the prior updatedAt. -/
theorem updateStatus_same_millisecond_not_later :
    ordA.updatedAt = some 1000 ∧
    (mongoUpdateStatus stA "oid0" (some "ready") 1000).result =
      .ok { ordA with status := "ready", updatedAt := some 1000 } ∧
    mongoGetOrder (mongoUpdateStatus stA "oid0" (some "ready") 1000).state "oid0" =
      .ok { ordA with status := "ready", updatedAt := some 1000 } ∧
    ¬ ((1000 : Nat) < 1000) := by
  refine ⟨rfl, rfl, rfl, by decide⟩

/-- C6 (amended): after every successful updateStatus on an existing order,
getOrder returns an order whose status equals newStatus and whose updatedAt
equals the time of the update call — hence strictly later than the prior
updatedAt exactly when the update call's clock time is strictly later (the
clock is not guaranteed to have advanced within the same millisecond).
Holds for both servers. -/
theorem updateStatus_sets_status_and_time (s : MongoState) (p : PgState)
    (id : String) (pid : Nat) (st : String) (now pnow : Nat)
    (o : MongoOrder) (q : PgOrder)
    (hc : s.connected = true)
    (ho : s.dbOrders.find? (fun x => x._id == id) = some o)
    (hq : pgFindById p pid = some q)
    (hst : st ∈ validStatuses) :
    (mongoUpdateStatus s id (some st) now).result =
      .ok { o with status := st, updatedAt := some now } ∧
    mongoGetOrder (mongoUpdateStatus s id (some st) now).state id =
      .ok { o with status := st, updatedAt := some now } ∧
    (pgUpdateStatus p (some pid) (some st) pnow).result =
      .ok { q with status := st, updated_at := pnow } ∧
    pgGetOrder (pgUpdateStatus p (some pid) (some st) pnow).state pid =
      .ok { q with status := st, updated_at := pnow } := by
  have hv : isValidStatus (some st) = true := by
    simp only [isValidStatus]
    simpa using hst
  have hoid := List.find?_some ho
  have hq' : p.orders.find? (fun x => x.id == pid) = some q := hq
  have hqid := List.find?_some hq'
  have hmongo :
      mongoUpdateStatus s id (some st) now =
        { result := .ok { o with status := st, updatedAt := some now },
          state := { s with
            dbOrders := mongoReplace id { o with status := st, updatedAt := some now } s.dbOrders },
          trace := [.storeWrite true,
            .publish ⟨"table_" ++ toString o.tableNo, "orderStatusUpdate",
              .mongoStatus o._id st⟩,
            .publish ⟨"chef_portal", "orderStatusUpdated", .mongoStatus o._id st⟩] } := by
    rw [mongoUpdateStatus, if_neg (by simp [hv])]
    simp only [hc, Bool.not_true, Bool.false_eq_true, if_false, ho, Option.getD_some]
  have hfind :
      (mongoReplace id { o with status := st, updatedAt := some now } s.dbOrders).find?
          (fun x => x._id == id) =
        some { o with status := st, updatedAt := some now } :=
    find?_map_replace (fun x : MongoOrder => x._id == id)
      { o with status := st, updatedAt := some now } hoid s.dbOrders (by rw [ho]; rfl)
  have hpgdb :
      pgUpdateStatusDb p pid st pnow =
        (some { q with status := st, updated_at := pnow },
         { p with
           orders := pgReplace pid { q with status := st, updated_at := pnow } p.orders }) := by
    rw [pgUpdateStatusDb, hq]
  have hpgfind :
      pgFindById
          { p with
            orders := pgReplace pid { q with status := st, updated_at := pnow } p.orders } pid =
        some { q with status := st, updated_at := pnow } := by
    rw [pgFindById]
    exact find?_map_replace (fun x : PgOrder => x.id == pid)
      { q with status := st, updated_at := pnow } hqid p.orders (by rw [hq']; rfl)
  have hpg :
      pgUpdateStatus p (some pid) (some st) pnow =
        { result := .ok { q with status := st, updated_at := pnow },
          state := { p with
            orders := pgReplace pid { q with status := st, updated_at := pnow } p.orders },
          trace := [.storeWrite true,
            .publish ⟨"table_" ++ toString q.table_no, "orderStatusUpdate",
              .pgStatusUpdate q.id st pnow⟩,
            .publish ⟨"chef_portal", "orderStatusUpdated",
              .pgStatusUpdated q.id st⟩] } := by
    rw [pgUpdateStatus]
    rw [if_neg (by simp [hv])]
    simp only [Option.getD_some, hpgdb, hpgfind]
  refine ⟨by rw [hmongo], ?_, by rw [hpg], ?_⟩
  · rw [hmongo, mongoGetOrder, if_neg (by simp [hc])]
    rw [hfind]
  · rw [hpg, pgGetOrder, hpgfind]

/-- Witness for `updateStatus_sets_status_and_time`: `ordA` (updated at 1000)
set to `ready` at time 2000 and `rowA` (updated at 900) set to `ready` at
time 2000. -/
theorem updateStatus_sets_status_and_time_witness :
    (mongoUpdateStatus stA "oid0" (some "ready") 2000).result =
      .ok { ordA with status := "ready", updatedAt := some 2000 } ∧
    mongoGetOrder (mongoUpdateStatus stA "oid0" (some "ready") 2000).state "oid0" =
      .ok { ordA with status := "ready", updatedAt := some 2000 } ∧
    (pgUpdateStatus pstA (some 1) (some "ready") 2000).result =
      .ok { rowA with status := "ready", updated_at := 2000 } ∧
    pgGetOrder (pgUpdateStatus pstA (some 1) (some "ready") 2000).state 1 =
      .ok { rowA with status := "ready", updated_at := 2000 } :=
  updateStatus_sets_status_and_time stA pstA "oid0" 1 "ready" 2000 2000 ordA rowA
    rfl (by decide) (by decide) (by decide)

/-! ### C7: listing orders with filters -/

/-- C7 counterexample: the document-store `GET /api/orders` only reads the
`status` query parameter; with a `tableNo = 5` filter supplied, the order at
table 4 is still returned, so the result is not "exactly the orders matching
every supplied filter". -/
theorem listOrders_ignores_tableNo_filter :
    mongoListOrders stA { status := none, tableNo := some 5 } = .ok [ordA] ∧
    ordA.tableNo ≠ 5 := by
  exact ⟨rfl, by decide⟩

/-- C7 (amended): the document-store implementation returns exactly the
orders matching the optional status filter — its `tableNo` parameter is
ignored — in creation-time-descending order; the relational implementation
returns exactly the orders matching both optional filters in
creation-time-descending order. -/
theorem listOrders_filtered_sorted (s : MongoState) (p : PgState) (q : OrdersQuery)
    (l : List MongoOrder) (m : List PgOrder)
    (hc : s.connected = true)
    (hl : mongoListOrders s q = .ok l)
    (hm : pgListOrders p q = .ok m) :
    l.Perm (s.dbOrders.filter (matchesStatusFilter q)) ∧
    sortedByDesc (fun o => o.createdAt) l ∧
    (∀ tn : Option Int,
       mongoListOrders s { status := q.status, tableNo := tn } = mongoListOrders s q) ∧
    m.Perm (p.orders.filter
      (pgMatchesFilters (if truthyStr q.status then q.status else none) q.tableNo)) ∧
    sortedByDesc (fun o => o.created_at) m := by
  rw [mongoListOrders, if_neg (by simp [hc])] at hl
  injection hl with h
  subst h
  rw [pgListOrders] at hm
  injection hm with h
  subst h
  refine ⟨sortDesc_perm _ _, sortDesc_sorted _ _, fun tn => rfl, ?_, ?_⟩
  · exact sortDesc_perm _ _
  · exact sortDesc_sorted _ _

/-- Witness for `listOrders_filtered_sorted` on the one-order stores with no
filters supplied. -/
theorem listOrders_filtered_sorted_witness :
    [ordA].Perm (stA.dbOrders.filter (matchesStatusFilter { status := none, tableNo := none })) ∧
    sortedByDesc (fun o => o.createdAt) [ordA] ∧
    (∀ tn : Option Int,
       mongoListOrders stA { status := none, tableNo := tn } =
         mongoListOrders stA { status := none, tableNo := none }) ∧
    [rowA].Perm (pstA.orders.filter
      (pgMatchesFilters (if truthyStr none then none else none) none)) ∧
    sortedByDesc (fun o => o.created_at) [rowA] :=
  listOrders_filtered_sorted stA pstA { status := none, tableNo := none } [ordA] [rowA]
    rfl rfl rfl

/-! ### State-shape lemmas for the reachability invariants -/

theorem mongoPlaceOrder_state_cases (s : MongoState) (r : OrderReq) (now : Nat)
    (w : Bool) :
    (mongoPlaceOrder s r now w).state = s ∨
    (∃ o : MongoOrder, o.status = "pending" ∧
       (mongoPlaceOrder s r now w).state = { s with memOrders := s.memOrders ++ [o] }) ∨
    (∃ o : MongoOrder, o.status = "pending" ∧
       (mongoPlaceOrder s r now w).state =
         { s with dbOrders := s.dbOrders ++ [o], oidCounter := s.oidCounter + 1 }) := by
  rw [mongoPlaceOrder]
  by_cases h1 : missingRequiredFields r
  · rw [if_pos h1]
    exact Or.inl rfl
  · rw [if_neg h1]
    cases hcs : s.connected with
    | false =>
      simp only [Bool.not_false, if_true]
      exact Or.inr (Or.inl ⟨_, rfl, rfl⟩)
    | true =>
      simp only [Bool.not_true, Bool.false_eq_true, if_false]
      cases w with
      | false => exact Or.inl rfl
      | true => exact Or.inr (Or.inr ⟨_, rfl, rfl⟩)

theorem mongoUpdateStatus_state_cases (s : MongoState) (id : String)
    (status : Option String) (now : Nat) :
    (mongoUpdateStatus s id status now).state = s ∨
    (∃ st : String, ∃ u : MongoOrder, st ∈ validStatuses ∧ u.status = st ∧
       (mongoUpdateStatus s id status now).state =
         { s with dbOrders := mongoReplace id u s.dbOrders }) := by
  rw [mongoUpdateStatus]
  by_cases h1 : isValidStatus status
  · rw [if_neg (by simp [h1])]
    cases status with
    | none => exact absurd h1 (by simp [isValidStatus])
    | some st =>
      have hst : st ∈ validStatuses := by
        simpa [isValidStatus] using h1
      cases hcs : s.connected with
      | false => exact Or.inl rfl
      | true =>
        cases hfind : s.dbOrders.find? (fun o => o._id == id) with
        | none => exact Or.inl rfl
        | some o => exact Or.inr ⟨st, _, hst, rfl, rfl⟩
  · rw [if_pos (by simpa using h1)]
    exact Or.inl rfl

theorem mongoUpdateStatus_memOrders (s : MongoState) (id : String)
    (status : Option String) (now : Nat) :
    (mongoUpdateStatus s id status now).state.memOrders = s.memOrders := by
  rcases mongoUpdateStatus_state_cases s id status now with h | ⟨st, u, _, _, h⟩ <;>
    rw [h]

theorem pgPlaceOrder_state_cases (p : PgState) (r : OrderReq) (now : Nat) (w : Bool) :
    (pgPlaceOrder p r now w).state = p ∨
    (∃ o : PgOrder, o.status = "pending" ∧
       (pgPlaceOrder p r now w).state =
         { orders := p.orders ++ [o], nextId := p.nextId + 1 }) := by
  rw [pgPlaceOrder]
  by_cases h1 : missingRequiredFields r
  · rw [if_pos h1]
    exact Or.inl rfl
  · rw [if_neg h1]
    cases w with
    | false => exact Or.inl rfl
    | true => exact Or.inr ⟨_, rfl, rfl⟩

theorem pgUpdateStatus_state_cases (p : PgState) (oid : Option Nat)
    (status : Option String) (now : Nat) :
    (pgUpdateStatus p oid status now).state = p ∨
    (∃ pid : Nat, ∃ st : String, ∃ u : PgOrder, st ∈ validStatuses ∧ u.status = st ∧
       (pgUpdateStatus p oid status now).state =
         { p with orders := pgReplace pid u p.orders }) := by
  cases oid with
  | none => exact Or.inl rfl
  | some pid =>
    by_cases h1 : isValidStatus status
    · cases status with
      | none => exact absurd h1 (by simp [isValidStatus])
      | some st =>
        have hst : st ∈ validStatuses := by
          simpa [isValidStatus] using h1
        rw [pgUpdateStatus]
        rw [if_neg (by simp [h1])]
        cases hfind : pgFindById p pid with
        | none =>
          simp only [pgUpdateStatusDb, hfind]
          exact Or.inl trivial
        | some o =>
          simp only [pgUpdateStatusDb, hfind, Option.getD_some]
          cases hf2 : pgFindById { p with orders := pgReplace pid { o with status := st, updated_at := now } p.orders } pid with
          | none => exact Or.inr ⟨pid, st, _, hst, rfl, rfl⟩
          | some u2 => exact Or.inr ⟨pid, st, _, hst, rfl, rfl⟩
    · rw [pgUpdateStatus]
      rw [if_pos (by simpa using h1)]
      exact Or.inl rfl

theorem mongoReplace_keeps (P : MongoOrder → Prop) (id : String) (u : MongoOrder)
    (l : List MongoOrder) (hu : P u) (hl : ∀ o ∈ l, P o) :
    ∀ o ∈ mongoReplace id u l, P o := by
  intro o ho
  rcases List.mem_map.mp ho with ⟨x, hx, hfx⟩
  by_cases hxid : (x._id == id) = true
  · rw [if_pos hxid] at hfx
    exact hfx ▸ hu
  · rw [if_neg hxid] at hfx
    exact hfx ▸ hl x hx

theorem pgReplace_keeps (P : PgOrder → Prop) (pid : Nat) (u : PgOrder)
    (l : List PgOrder) (hu : P u) (hl : ∀ o ∈ l, P o) :
    ∀ o ∈ pgReplace pid u l, P o := by
  intro o ho
  rcases List.mem_map.mp ho with ⟨x, hx, hfx⟩
  by_cases hxid : (x.id == pid) = true
  · rw [if_pos hxid] at hfx
    exact hfx ▸ hu
  · rw [if_neg hxid] at hfx
    exact hfx ▸ hl x hx

theorem mongoReachable_statusesValid {s : MongoState} (h : MongoReachable s) :
    mongoStatusesValid s := by
  induction h with
  | start c => exact ⟨by simp [mongoStart], by simp [mongoStart]⟩
  | step hr hstep ih =>
    cases hstep with
    | place r now w =>
      rcases mongoPlaceOrder_state_cases _ r now w with h | ⟨o, ho, h⟩ | ⟨o, ho, h⟩
      · rw [h]; exact ih
      · rw [h]
        refine ⟨ih.1, ?_⟩
        intro x hx
        rcases List.mem_append.mp hx with hx | hx
        · exact ih.2 x hx
        · rw [List.mem_singleton.mp hx, ho]
          decide
      · rw [h]
        refine ⟨?_, ih.2⟩
        intro x hx
        rcases List.mem_append.mp hx with hx | hx
        · exact ih.1 x hx
        · rw [List.mem_singleton.mp hx, ho]
          decide
    | update id status now =>
      rcases mongoUpdateStatus_state_cases _ id status now with h | ⟨st, u, hst, hu, h⟩
      · rw [h]; exact ih
      · rw [h]
        exact ⟨mongoReplace_keeps (fun o => o.status ∈ validStatuses) id u _
          (by show u.status ∈ validStatuses; rw [hu]; exact hst) ih.1, ih.2⟩
    | conn b => exact ih

theorem pgReachable_statusesValid {p : PgState} (h : PgReachable p) :
    pgStatusesValid p := by
  induction h with
  | start => simp [pgStart, pgStatusesValid]
  | step hr hstep ih =>
    cases hstep with
    | place r now w =>
      rcases pgPlaceOrder_state_cases _ r now w with h | ⟨o, ho, h⟩
      · rw [h]; exact ih
      · rw [h]
        intro x hx
        rcases List.mem_append.mp hx with hx | hx
        · exact ih x hx
        · rw [List.mem_singleton.mp hx, ho]
          decide
    | update oid status now =>
      rcases pgUpdateStatus_state_cases _ oid status now with h | ⟨pid, st, u, hst, hu, h⟩
      · rw [h]; exact ih
      · rw [h]
        exact pgReplace_keeps (fun o => o.status ∈ validStatuses) pid u _
          (by show u.status ∈ validStatuses; rw [hu]; exact hst) ih

/-! ### C8: only the six statuses are ever persisted -/

/-- C8: in every reachable state of either server, every persisted order's
status is one of the six defined values; placeOrder persists only `pending`
and updateStatus persists only a validated status. -/
theorem persisted_statuses_always_valid :
    (∀ s, MongoReachable s → mongoStatusesValid s) ∧
    (∀ p, PgReachable p → pgStatusesValid p) :=
  ⟨fun _ h => mongoReachable_statusesValid h, fun _ h => pgReachable_statusesValid h⟩

/-! ### C9: the notifier runs only after a successful store write -/

theorem mongoPlaceOrder_trace_ok (s : MongoState) (r : OrderReq) (now : Nat) (w : Bool) :
    publishesOnlyAfterWrite (mongoPlaceOrder s r now w).trace := by
  rw [mongoPlaceOrder]
  by_cases h1 : missingRequiredFields r
  · rw [if_pos h1]
    exact publishesOnlyAfterWrite_nil
  · rw [if_neg h1]
    cases hcs : s.connected with
    | false => exact publishesOnlyAfterWrite_writeOk [_, _]
    | true =>
      cases w with
      | false => exact publishesOnlyAfterWrite_failed
      | true => exact publishesOnlyAfterWrite_writeOk [_, _]

theorem mongoUpdateStatus_trace_ok (s : MongoState) (id : String)
    (status : Option String) (now : Nat) :
    publishesOnlyAfterWrite (mongoUpdateStatus s id status now).trace := by
  rw [mongoUpdateStatus]
  by_cases h1 : isValidStatus status
  · rw [if_neg (by simp [h1])]
    cases hcs : s.connected with
    | false => exact publishesOnlyAfterWrite_failed
    | true =>
      cases hfind : s.dbOrders.find? (fun o => o._id == id) with
      | none => exact publishesOnlyAfterWrite_failed
      | some o => exact publishesOnlyAfterWrite_writeOk [_, _]
  · rw [if_pos (by simpa using h1)]
    exact publishesOnlyAfterWrite_nil

theorem pgPlaceOrder_trace_ok (p : PgState) (r : OrderReq) (now : Nat) (w : Bool) :
    publishesOnlyAfterWrite (pgPlaceOrder p r now w).trace := by
  rw [pgPlaceOrder]
  by_cases h1 : missingRequiredFields r
  · rw [if_pos h1]
    exact publishesOnlyAfterWrite_nil
  · rw [if_neg h1]
    cases w with
    | false => exact publishesOnlyAfterWrite_failed
    | true => exact publishesOnlyAfterWrite_writeOk [_, _]

theorem pgUpdateStatus_trace_ok (p : PgState) (oid : Option Nat)
    (status : Option String) (now : Nat) :
    publishesOnlyAfterWrite (pgUpdateStatus p oid status now).trace := by
  cases oid with
  | none => exact publishesOnlyAfterWrite_nil
  | some pid =>
    rw [pgUpdateStatus]
    by_cases h1 : isValidStatus status
    · rw [if_neg (by simp [h1])]
      cases hfind : pgFindById p pid with
      | none =>
        simp only [pgUpdateStatusDb, hfind]
        exact publishesOnlyAfterWrite_failed
      | some o =>
        simp only [pgUpdateStatusDb, hfind]
        cases hf2 : pgFindById { p with orders := pgReplace pid { o with status := status.getD "", updated_at := now } p.orders } pid with
        | none => exact publishesOnlyAfterWrite_writeOk []
        | some u2 => exact publishesOnlyAfterWrite_writeOk [_, _]
    · rw [if_pos (by simpa using h1)]
      exact publishesOnlyAfterWrite_nil

theorem mongoPlaceOrder_failed_write_no_events (s : MongoState) (r : OrderReq)
    (now : Nat) (hc : s.connected = true) :
    publishedEvents (mongoPlaceOrder s r now false).trace = [] := by
  rw [mongoPlaceOrder]
  by_cases h1 : missingRequiredFields r
  · rw [if_pos h1]
    rfl
  · rw [if_neg h1]
    simp only [hc]
    rfl

theorem pgPlaceOrder_failed_write_no_events (p : PgState) (r : OrderReq) (now : Nat) :
    publishedEvents (pgPlaceOrder p r now false).trace = [] := by
  rw [pgPlaceOrder]
  by_cases h1 : missingRequiredFields r
  · rw [if_pos h1]
    rfl
  · rw [if_neg h1]
    rfl

/-- C9: in every execution of placeOrder and updateStatus, on either server,
every notifier publish in the action trace is preceded by a successful store
write (so the notifier is never invoked before the write), and an execution
whose store write fails publishes nothing. -/
theorem notifier_invoked_only_after_write :
    (∀ s r now w, publishesOnlyAfterWrite (mongoPlaceOrder s r now w).trace) ∧
    (∀ s id status now, publishesOnlyAfterWrite (mongoUpdateStatus s id status now).trace) ∧
    (∀ p r now w, publishesOnlyAfterWrite (pgPlaceOrder p r now w).trace) ∧
    (∀ p oid status now, publishesOnlyAfterWrite (pgUpdateStatus p oid status now).trace) ∧
    (∀ s r now, s.connected = true →
       publishedEvents (mongoPlaceOrder s r now false).trace = []) ∧
    (∀ p r now, publishedEvents (pgPlaceOrder p r now false).trace = []) :=
  ⟨mongoPlaceOrder_trace_ok, mongoUpdateStatus_trace_ok, pgPlaceOrder_trace_ok,
   pgUpdateStatus_trace_ok, mongoPlaceOrder_failed_write_no_events,
   pgPlaceOrder_failed_write_no_events⟩

/-! ### C10: fallback orders are stranded at `pending` -/

theorem mongoReachable_memPending {s : MongoState} (h : MongoReachable s) :
    ∀ o ∈ s.memOrders, o.status = "pending" := by
  induction h with
  | start c => simp [mongoStart]
  | step hr hstep ih =>
    cases hstep with
    | place r now w =>
      rcases mongoPlaceOrder_state_cases _ r now w with h | ⟨o, ho, h⟩ | ⟨o, ho, h⟩
      · rw [h]; exact ih
      · rw [h]
        intro x hx
        rcases List.mem_append.mp hx with hx | hx
        · exact ih x hx
        · rw [List.mem_singleton.mp hx]
          exact ho
      · rw [h]; exact ih
    | update id status now =>
      rw [mongoUpdateStatus_memOrders]
      exact ih
    | conn b => exact ih

/-- C10: in the document-store implementation, with the database connection
down, placeOrder appends the new order (created `pending`) only to the
in-memory list and leaves the database collection untouched, getOrder reads
from that list, while updateStatus never touches the in-memory list and never
succeeds while the connection is down; consequently, in every reachable
state, every order in the in-memory fallback list still has status
`pending`. -/
theorem fallback_orders_stay_pending :
    (∀ s r now w o, s.connected = false → (mongoPlaceOrder s r now w).result = .ok o →
       (mongoPlaceOrder s r now w).state.memOrders = s.memOrders ++ [o] ∧
       (mongoPlaceOrder s r now w).state.dbOrders = s.dbOrders ∧
       o.status = "pending") ∧
    (∀ s id o, s.connected = false → mongoGetOrder s id = .ok o → o ∈ s.memOrders) ∧
    (∀ s id status now,
       (mongoUpdateStatus s id status now).state.memOrders = s.memOrders) ∧
    (∀ s id status now o, s.connected = false →
       (mongoUpdateStatus s id status now).result ≠ .ok o) ∧
    (∀ s, MongoReachable s → ∀ o ∈ s.memOrders, o.status = "pending") := by
  refine ⟨?_, ?_, ?_, ?_, fun _ h => mongoReachable_memPending h⟩
  · intro s r now w o hc hok
    rw [mongoPlaceOrder] at hok ⊢
    by_cases h1 : missingRequiredFields r
    · rw [if_pos h1] at hok
      exact absurd hok (by simp)
    · rw [if_neg h1] at hok ⊢
      simp only [hc, Bool.not_false, if_true] at hok ⊢
      injection hok with h2
      subst h2
      simp
  · intro s id o hc hok
    rw [mongoGetOrder] at hok
    simp only [hc, Bool.not_false, if_true] at hok
    cases hfind : s.memOrders.find? (fun x => x._id == id) with
    | none =>
      rw [hfind] at hok
      exact absurd hok (by simp)
    | some x =>
      rw [hfind] at hok
      injection hok with h2
      subst h2
      exact List.mem_of_find?_eq_some hfind
  · intro s id status now
    exact mongoUpdateStatus_memOrders s id status now
  · intro s id status now o hc
    rw [mongoUpdateStatus]
    by_cases h1 : isValidStatus status
    · rw [if_neg (by simp [h1])]
      simp [hc]
    · rw [if_pos (by simpa using h1)]
      simp
